import Mathlib

/-!
# Verification of the farm-lir inscribed-shape search engine

Shallow embedding of `src/largestinteriorrectangle` (Python) in Lean 4.

Conventions of the embedding:
* Python `float` arithmetic is modelled by exact arithmetic: `ℚ` for the
  purely rational computations (the geometry kernel, the axis-aligned
  sweep, the bisection shrink loops and the strategy selector) and `ℝ`
  for the routines that use `sqrt`/`arccos` (the triangle incenter and
  the shape classifier).  Float literals such as `1e-10` become the exact
  rationals they denote in the source text (`1/10^10`).
* OpenCV calls are external library code, not code of this repository.
  `cv2.pointPolygonTest(poly, p, True)` (a signed distance to the polygon
  boundary) is passed to each embedded routine as an explicit function
  parameter `d`, and `cv2.contourArea` is embedded as the absolute
  shoelace area it computes for simple polygons.  The raster pipeline of
  `lir_rotated_safe` (`cv2.findContours`, `cv2.approxPolyDP`,
  `cv2.warpAffine` and the `lir_basis` module) only *proposes* candidate
  rectangles; it is modelled by an explicit list of proposed candidate
  corner sets, one per surviving tested angle, in iteration order.
* Python exceptions are modelled with `Except String`.
-/

namespace FarmLir

/-- A 2D point `(x, y)` with rational coordinates. -/
abbrev Pt : Type := ℚ × ℚ

/-- List indexing `polygon[i]` (all uses in the source are in bounds;
the default value is never read there). -/
def hGet (poly : List Pt) (i : ℕ) : Pt := poly.getD i (0, 0)

/-- Insert a value into an ascending-sorted list, keeping it sorted.
Building block for the embedding of Python `sorted`. -/
def insertSorted (x : ℚ) : List ℚ → List ℚ
  | [] => [x]
  | y :: ys => if x ≤ y then x :: y :: ys else y :: insertSorted x ys

/-- Embedding of Python `sorted` on a list of numbers (ascending order). -/
def sortRat (l : List ℚ) : List ℚ := l.foldr insertSorted []

/-- `geometry_utils.get_critical_y_values`: `sorted(set(polygon[:, 1]))`,
the sorted list of distinct vertex y-coordinates. -/
def get_critical_y_values (polygon : List Pt) : List ℚ :=
  sortRat (polygon.map Prod.snd).dedup

/-- One edge step of `geometry_utils.horizontal_line_polygon_intersection`:
the contribution of edge `(p1, p2)` (with predecessor y-coordinate
`y_prev` of `p1`) to the intersection list at height `y`. -/
def hliEdge (y : ℚ) (p1 p2 : Pt) (y_prev : ℚ) (acc : List ℚ) : List ℚ :=
  let y1 := p1.2
  let y2 := p2.2
  if (y1 ≤ y ∧ y < y2) ∨ (y2 ≤ y ∧ y < y1) then
    if |y2 - y1| > 1 / 10 ^ 10 then
      acc ++ [p1.1 + (y - y1) * (p2.1 - p1.1) / (y2 - y1)]
    else acc
  else if |y1 - y| < 1 / 10 ^ 10 then
    if (y_prev < y ∧ y < y2) ∨ (y2 < y ∧ y < y_prev) then acc ++ [p1.1]
    else acc
  else acc

/-- `geometry_utils.horizontal_line_polygon_intersection`: the sorted
x-coordinates where the horizontal line at height `y` crosses the
polygon boundary (half-open crossing test per edge, plus the
endpoint-on-line straddle test against the neighbouring vertices). -/
def horizontal_line_polygon_intersection (polygon : List Pt) (y : ℚ) : List ℚ :=
  let n := polygon.length
  sortRat ((List.range n).foldl
    (fun acc i =>
      hliEdge y (hGet polygon i) (hGet polygon ((i + 1) % n))
        (hGet polygon ((i + n - 1) % n)).2 acc)
    [])

/-- The width and left x-coordinate the sweep reads off the intersection
list at one y-value (`intersections[-1] - intersections[0]`,
`intersections[0]`), or `none` when fewer than 2 intersections exist. -/
def widthAt (polygon : List Pt) (y : ℚ) : Option (ℚ × ℚ) :=
  match horizontal_line_polygon_intersection polygon y with
  | x0 :: x1 :: rest => some ((x1 :: rest).getLastD x1 - x0, x0)
  | _ => none

/-- State of the minimum-width scan in
`geometry_utils.compute_max_width_between_y`: not yet started
(`min_width = inf`), running with the current minimum, or failed
(some sampled y had fewer than 2 intersections, which makes the
Python function return `(0.0, 0.0)`). -/
inductive WState
  | initial
  | found (minW xL : ℚ)
  | failed
deriving DecidableEq, Repr

/-- One iteration of the minimum-width scan. -/
def widthStep (polygon : List Pt) (st : WState) (y : ℚ) : WState :=
  match st with
  | .failed => .failed
  | .initial =>
    match widthAt polygon y with
    | none => .failed
    | some (w, xl) => .found w xl
  | .found mw bxl =>
    match widthAt polygon y with
    | none => .failed
    | some (w, xl) => if w < mw then .found w xl else .found mw bxl

/-- The sample refinement loop of `compute_max_width_between_y`:
`for i in range(num_samples + 1)` append the interpolated y-value if it
is not already present (`num_samples = 10`). -/
def addSamples (ys : List ℚ) (y_bottom y_top : ℚ) : List ℚ :=
  (List.range 11).foldl
    (fun acc i =>
      let y := y_bottom + (y_top - y_bottom) * i / 10
      if y ∈ acc then acc else acc ++ [y])
    ys

/-- `geometry_utils.compute_max_width_between_y`: the minimum horizontal
span over the sampled y-values in `[y_bottom, y_top]` (critical values
in range plus 11 interpolated samples), together with the left
x-coordinate of the minimising sample; `(0, 0)` when the sample list is
empty or some sample has fewer than 2 intersections. -/
def compute_max_width_between_y (polygon : List Pt) (y_bottom y_top : ℚ) : ℚ × ℚ :=
  let crit := (get_critical_y_values polygon).filter fun y => y_bottom ≤ y ∧ y ≤ y_top
  let ys := sortRat (addSamples crit y_bottom y_top)
  match ys.foldl (widthStep polygon) .initial with
  | .initial => (0, 0)
  | .failed => (0, 0)
  | .found w xl => (w, xl)

/-- All pairs `(y_values[i], y_values[j])` with `i < j`, in the nested-loop
order of `axis_aligned_rect.compute_axis_aligned_max_rect`. -/
def yPairs : List ℚ → List (ℚ × ℚ)
  | [] => []
  | y :: ys => ys.map (fun yt => (y, yt)) ++ yPairs ys

/-- Candidate update of the sweep: keep the rectangle
`(x, y, width, height, area)` with the strictly largest area. -/
def rectStep (polygon : List Pt) (best : ℚ × ℚ × ℚ × ℚ × ℚ) (p : ℚ × ℚ) :
    ℚ × ℚ × ℚ × ℚ × ℚ :=
  let y_bottom := p.1
  let y_top := p.2
  let height := y_top - y_bottom
  if height ≤ 0 then best
  else
    let wx := compute_max_width_between_y polygon y_bottom y_top
    if wx.1 ≤ 0 then best
    else
      let area := wx.1 * height
      if area > best.2.2.2.2 then (wx.2, y_bottom, wx.1, height, area) else best

/-- `axis_aligned_rect.compute_axis_aligned_max_rect`: the sweep over all
pairs of critical y-values, returning `(x, y, width, height, area)` of
the best rectangle, or the zero sentinel when fewer than 2 distinct
critical y-values exist. -/
def compute_axis_aligned_max_rect (polygon : List Pt) : ℚ × ℚ × ℚ × ℚ × ℚ :=
  let y_values := get_critical_y_values polygon
  if y_values.length < 2 then (0, 0, 0, 0, 0)
  else (yPairs y_values).foldl (rectStep polygon) (0, 0, 0, 0, 0)

/-- `geometry_utils.rectangle_corners` at rotation angle 0 (the only
rotation used by the axis-aligned search; the `angle_rad` branch is
skipped for `|angle| ≤ 1e-10`). -/
def rectangle_corners (x y width height : ℚ) : List Pt :=
  [(x, y), (x + width, y), (x + width, y + height), (x, y + height)]

/-- One edge of the ray-casting loop of `geometry_utils.point_in_polygon`:
toggle `inside` when the edge `(p1, p2)` passes the crossing tests.
When `p1.2 = p2.2` the outer conditions `min < y ≤ max` are
contradictory, so the branch that would read the stale `xinters` of the
Python source is unreachable; the embedding guards the `xinters` read
with `p1.2 ≠ p2.2`. -/
def pipToggle (pt p1 p2 : Pt) (inside : Bool) : Bool :=
  let x := pt.1
  let y := pt.2
  if y > min p1.2 p2.2 then
    if y ≤ max p1.2 p2.2 then
      if x ≤ max p1.1 p2.1 then
        if p1.1 = p2.1 ∨
            (p1.2 ≠ p2.2 ∧ x ≤ (y - p1.2) * (p2.1 - p1.1) / (p2.2 - p1.2) + p1.1) then
          !inside
        else inside
      else inside
    else inside
  else inside

/-- `geometry_utils.point_in_polygon`: ray-casting parity test over the
closed edge loop `(v_0, v_1), …, (v_{n-1}, v_0)`. -/
def point_in_polygon (point : Pt) (polygon : List Pt) : Bool :=
  let n := polygon.length
  (List.range n).foldl
    (fun inside i => pipToggle point (hGet polygon i) (hGet polygon ((i + 1) % n)) inside)
    false

/-- The signed shoelace sum of a vertex loop. -/
def shoelace (poly : List Pt) : ℚ :=
  ((List.range poly.length).map fun i =>
    let p1 := hGet poly i
    let p2 := hGet poly ((i + 1) % poly.length)
    p1.1 * p2.2 - p2.1 * p1.2).sum

/-- `cv2.contourArea` on a simple vertex loop: the absolute shoelace
area (external library function, embedded by its documented value). -/
def contourArea (poly : List Pt) : ℚ := |shoelace poly| / 2

/-- `polygon.mean(axis=0)`: the vertex centroid. -/
def centroid (poly : List Pt) : Pt :=
  ((poly.map Prod.fst).sum / poly.length, (poly.map Prod.snd).sum / poly.length)

/-- `center + (polygon - center) * f`: uniform scaling of a vertex loop
towards a center point by factor `f`. -/
def scalePoly (center : Pt) (poly : List Pt) (f : ℚ) : List Pt :=
  poly.map fun p => (center.1 + (p.1 - center.1) * f, center.2 + (p.2 - center.2) * f)

/-- The all-points margin test shared by the shrink routines: every
tested point must have signed distance `d p` (the embedding of
`cv2.pointPolygonTest(outer, p, True)`) at least `margin`; the Python
loop sets `all_inside = False` on the first point with `d p < margin`. -/
def allInsideMargin (d : Pt → ℚ) (margin : ℚ) (pts : List Pt) : Bool :=
  pts.all fun p => !decide (d p < margin)

/-- State of the bisection shrink loops: the bracketing interval
`[low, high]` of shrink factors and the best fitting loop found so far
with its area. -/
structure ShrinkState where
  low : ℚ
  high : ℚ
  best : Option (List Pt)
  bestArea : ℚ

/-- One bisection iteration of the shrink loops: test the midpoint
factor, record the scaled loop when it clears the margin, and move the
corresponding bracket end. -/
def shrinkStep (d : Pt → ℚ) (margin : ℚ) (center : Pt) (poly : List Pt)
    (st : ShrinkState) : ShrinkState :=
  let mid := (st.low + st.high) / 2
  let test := scalePoly center poly mid
  if allInsideMargin d margin test then
    let area := contourArea test
    if area > st.bestArea then ⟨mid, st.high, some test, area⟩
    else ⟨mid, st.high, st.best, st.bestArea⟩
  else ⟨st.low, mid, st.best, st.bestArea⟩

/-- The bisection loop (`for _ in range(max_iterations)` with the
`high - low < 0.001` break tested after each iteration). -/
def shrinkLoop (d : Pt → ℚ) (margin : ℚ) (center : Pt) (poly : List Pt) :
    ℕ → ShrinkState → ShrinkState
  | 0, st => st
  | fuel + 1, st =>
    let st' := shrinkStep d margin center poly st
    if st'.high - st'.low < 1 / 1000 then st'
    else shrinkLoop d margin center poly fuel st'

/-- `adaptive_shape.shrink_polygon_to_fit` (margin 1.0, 30 iterations):
return the polygon unchanged when it already clears the margin,
otherwise bisect the shrink factor in `[0.5, 1.0]`; when no tested
factor fits, fall back to the coordinate-halved polygon with area 0.
`d` embeds `cv2.pointPolygonTest(outer_polygon, ·, True)`. -/
def shrink_polygon_to_fit (d : Pt → ℚ) (polygon : List Pt) : List Pt × ℚ :=
  let center := centroid polygon
  if allInsideMargin d 1 polygon then (polygon, contourArea polygon)
  else
    let st := shrinkLoop d 1 center polygon 30 ⟨1 / 2, 1, none, 0⟩
    match st.best with
    | none => (polygon.map fun p => (p.1 * (1 / 2), p.2 * (1 / 2)), 0)
    | some b => (b, st.bestArea)

/-- `lir_rotated_safe.shrink_rect_to_polygon` (safety margin 0.5 pixels,
30 iterations): same bisection pattern applied to the 4 rectangle
corners against the extracted polygon, whose signed distance is `d`. -/
def shrink_rect_to_polygon (d : Pt → ℚ) (corners : List Pt) : List Pt × ℚ :=
  let center := centroid corners
  if allInsideMargin d (1 / 2) corners then (corners, contourArea corners)
  else
    let st := shrinkLoop d (1 / 2) center corners 30 ⟨1 / 2, 1, none, 0⟩
    match st.best with
    | none => (corners.map fun p => (p.1 * (1 / 2), p.2 * (1 / 2)), 0)
    | some b => (b, st.bestArea)

/-- The degenerate `np.zeros((4, 2))` corner loop. -/
def zeros42 : List Pt := [(0, 0), (0, 0), (0, 0), (0, 0)]

/-- The angle-candidate loop of `lir_rotated_safe.lir_rotated_safe`:
for each surviving tested angle the raster pipeline
(`cv2.getRotationMatrix2D`/`warpAffine`, the `lir_basis` axis-aligned
search and the inverse rotation of the corners — external code, given
here as the proposal list `cands` of `(corners_original, angle_deg)`
pairs in iteration order) proposes a candidate, which is shrunk against
the extracted polygon; the candidate with the largest post-shrink area
is kept. -/
def lirStep (d : Pt → ℚ) (st : Option (List Pt) × ℚ × ℚ) (c : List Pt × ℚ) :
    Option (List Pt) × ℚ × ℚ :=
  let fitted := shrink_rect_to_polygon d c.1
  if fitted.2 > st.2.2 then (some fitted.1, c.2, fitted.2) else st

/-- The fold over the surviving tested angles, tracking
`(best_corners, best_angle, best_area)` from `(None, 0.0, 0.0)`. -/
def lirSelectLoop (d : Pt → ℚ) (cands : List (List Pt × ℚ)) :
    Option (List Pt) × ℚ × ℚ :=
  cands.foldl (lirStep d) (none, 0, 0)

/-- `lir_rotated_safe.lir_rotated_safe` from the point where the polygon
has been extracted: run the angle loop and return
`(corners, angle, area)`, or the zero sentinel when no candidate
produced positive area.  (The earlier `if not contours` branch returns
the same zero sentinel.) -/
def lir_rotated_safe (d : Pt → ℚ) (cands : List (List Pt × ℚ)) :
    List Pt × ℚ × ℚ :=
  let sel := lirSelectLoop d cands
  match sel.1 with
  | none => (zeros42, 0, 0)
  | some corners => (corners, sel.2.1, sel.2.2)

/-- `smart_inscribe.InscribedResult`. -/
structure InscribedResult where
  polygon : List Pt
  shape_type : String
  area : ℚ
  coverage : ℚ
  strategy : String
deriving DecidableEq, Repr

/-- `smart_inscribe.compute_coverage`: `0.0` when `field_area == 0`,
otherwise `inscribed_area / field_area`. -/
def compute_coverage (inscribed_area field_area : ℚ) : ℚ :=
  if field_area = 0 then 0 else inscribed_area / field_area

/-- A binary occupancy grid. -/
abbrev Grid : Type := List (List Bool)

/-- `grid.sum()` on a boolean grid: the number of filled cells. -/
def gridSum (grid : Grid) : ℕ := (grid.map fun row => row.countP id).sum

/-- Stable insertion of a result into a list sorted by descending area:
placed after every element with area at least its own (the position
`list.sort(key=lambda r: r.area, reverse=True)` gives it). -/
def insertByAreaDesc (r : InscribedResult) :
    List InscribedResult → List InscribedResult
  | [] => [r]
  | x :: xs => if r.area > x.area then r :: x :: xs else x :: insertByAreaDesc r xs

/-- `results.sort(key=lambda r: r.area, reverse=True)`: stable
descending sort by area. -/
def sortByAreaDesc (l : List InscribedResult) : List InscribedResult :=
  l.foldl (fun acc r => insertByAreaDesc r acc) []

/-- `smart_inscribe.smart_inscribe`.  The two strategies are the
functions `adaptive` (`adaptive_shape.adaptive_inscribed_polygon`,
returning `(polygon, shape_type.value, area)`) and `rotated`
(`lir_rotated_safe`, returning `(corners, angle, area)`); both run
inside `try/except`, embedded by `Except` values: an `error` is a
caught strategy failure, excluded from the candidate list. -/
def smart_inscribe (adaptive : Grid → Except String (List Pt × String × ℚ))
    (rotated : Grid → ℚ → Except String (List Pt × ℚ × ℚ))
    (grid : Grid) (angle_step : ℚ) (try_multiple_strategies : Bool) :
    InscribedResult :=
  let field_area : ℚ := (gridSum grid : ℚ)
  if field_area = 0 then ⟨zeros42, "empty", 0, 0, "none"⟩
  else
    let r1 : List InscribedResult :=
      match adaptive grid with
      | .ok (polygon, shape_type, area) =>
        [⟨polygon, shape_type, area, compute_coverage area field_area, "adaptive_shape"⟩]
      | .error _ => []
    let r2 : List InscribedResult :=
      if try_multiple_strategies then
        match rotated grid angle_step with
        | .ok (rect_corners, _, rect_area) =>
          [⟨rect_corners, "rectangle", rect_area,
            compute_coverage rect_area field_area, "forced_rectangle"⟩]
        | .error _ => []
      else []
    match sortByAreaDesc (r1 ++ r2) with
    | [] => ⟨zeros42, "failed", 0, 0, "none"⟩
    | best :: _ => best

/-- Minimum of a list (`array.min()`); the default is never used on the
nonempty lists of the source. -/
def listMin (l : List ℚ) : ℚ :=
  match l with
  | [] => 0
  | x :: xs => xs.foldl min x

/-- Maximum of a list (`array.max()`). -/
def listMax (l : List ℚ) : ℚ :=
  match l with
  | [] => 0
  | x :: xs => xs.foldl max x

/-- `smart_inscribe.smart_inscribe_from_vertices`: validate the vertex
count (fewer than 3 vertices raises `ValueError`, embedded as
`Except.error`), build the scaled internal representation, rasterize
(`cv2.fillPoly` — external, the `rasterize` parameter), run
`smart_inscribe`, rescale the winning polygon and area back to input
units, and recompute coverage against the exact vertex-loop area.
The `classify_shape` call of Step 1 only feeds a print statement and
does not affect the result. -/
def smart_inscribe_from_vertices (rasterize : List Pt → Grid)
    (adaptive : Grid → Except String (List Pt × String × ℚ))
    (rotated : Grid → ℚ → Except String (List Pt × ℚ × ℚ))
    (vertices : List Pt) (angle_step : ℚ) (try_multiple_strategies : Bool)
    (grid_resolution : ℚ) : Except String InscribedResult :=
  if vertices.length < 3 then .error "At least 3 vertices required"
  else
    let min_x := listMin (vertices.map Prod.fst) - 50
    let min_y := listMin (vertices.map Prod.snd) - 50
    let max_x := listMax (vertices.map Prod.fst) + 50
    let max_y := listMax (vertices.map Prod.snd) + 50
    let width := max_x - min_x
    let height := max_y - min_y
    let scale := grid_resolution / max width height
    let scaled_vertices := vertices.map fun p => ((p.1 - min_x) * scale, (p.2 - min_y) * scale)
    let grid := rasterize scaled_vertices
    let result := smart_inscribe adaptive rotated grid angle_step try_multiple_strategies
    let result :=
      if result.area > 0 then
        { result with
          polygon := result.polygon.map fun p => (p.1 / scale + min_x, p.2 / scale + min_y)
          area := result.area / (scale * scale) }
      else result
    let field_area := contourArea vertices
    .ok { result with coverage := if field_area > 0 then result.area / field_area else 0 }

/-- A 2D point with real coordinates, for the routines that use
`sqrt`/`arccos` (`np.linalg.norm`, `np.arccos`). -/
abbrev RPt : Type := ℝ × ℝ

/-- `np.linalg.norm` of a 2D vector. -/
noncomputable def nrm (v : RPt) : ℝ := Real.sqrt (v.1 ^ 2 + v.2 ^ 2)

/-- The unit edge direction `v / (np.linalg.norm(v) + 1e-10)` built by
`adaptive_shape.classify_shape` for the edge from `a` to `b`. -/
noncomputable def unitEdge (a b : RPt) : RPt :=
  let v : RPt := (b.1 - a.1, b.2 - a.2)
  (v.1 / (nrm v + 1 / 10 ^ 10), v.2 / (nrm v + 1 / 10 ^ 10))

/-- `adaptive_shape.angle_between_vectors`: clip the normalised dot
product to `[-1, 1]`, take `arccos` and convert to degrees. -/
noncomputable def angle_between_vectors (v1 v2 : RPt) : ℝ :=
  let cos_angle := (v1.1 * v2.1 + v1.2 * v2.2) / (nrm v1 * nrm v2 + 1 / 10 ^ 10)
  Real.arccos (max (-1) (min cos_angle 1)) * (180 / Real.pi)

/-- `adaptive_shape.are_parallel`: the angle between the vectors is
within `tolerance` of 0° or of 180°. -/
def are_parallel (v1 v2 : RPt) (tolerance : ℝ) : Prop :=
  angle_between_vectors v1 v2 < tolerance ∨
    |angle_between_vectors v1 v2 - 180| < tolerance

/-- `adaptive_shape.ShapeType`. -/
inductive ShapeType
  | TRIANGLE
  | RECTANGLE
  | PARALLELOGRAM
  | TRAPEZOID
  | GENERAL
deriving DecidableEq, Repr

open scoped Classical in
/-- `adaptive_shape.classify_shape`: 3 vertices are a triangle; for 4
vertices the unit edge directions are paired off by `are_parallel`
(nested loop order `(0,1), (0,2), (0,3), (1,2), (1,3), (2,3)`), at
least two parallel pairs give a rectangle when every consecutive edge
angle is within tolerance of 90° and a parallelogram otherwise, exactly
one pair gives a trapezoid; everything else is general. -/
noncomputable def classify_shape (polygon : List RPt) (angle_tolerance : ℝ) : ShapeType :=
  if polygon.length = 3 then .TRIANGLE
  else
    match polygon with
    | [p0, p1, p2, p3] =>
      let e0 := unitEdge p0 p1
      let e1 := unitEdge p1 p2
      let e2 := unitEdge p2 p3
      let e3 := unitEdge p3 p0
      let parallel_pairs :=
        [(e0, e1), (e0, e2), (e0, e3), (e1, e2), (e1, e3), (e2, e3)].filter
          fun pr => decide (are_parallel pr.1 pr.2 angle_tolerance)
      if 2 ≤ parallel_pairs.length then
        if [(e0, e1), (e1, e2), (e2, e3), (e3, e0)].all
            (fun pr => !decide (|angle_between_vectors pr.1 pr.2 - 90| > angle_tolerance)) then
          .RECTANGLE
        else .PARALLELOGRAM
      else if parallel_pairs.length = 1 then .TRAPEZOID
      else .GENERAL
    | _ => .GENERAL

/-- List indexing on real-coordinate loops. -/
def hGetR (poly : List RPt) (i : ℕ) : RPt := poly.getD i (0, 0)

/-- Signed shoelace sum of a real-coordinate loop. -/
noncomputable def shoelaceR (poly : List RPt) : ℝ :=
  ((List.range poly.length).map fun i =>
    let p1 := hGetR poly i
    let p2 := hGetR poly ((i + 1) % poly.length)
    p1.1 * p2.2 - p2.1 * p1.2).sum

/-- `cv2.contourArea` on a real-coordinate simple loop. -/
noncomputable def contourAreaR (poly : List RPt) : ℝ := |shoelaceR poly| / 2

/-- Uniform scaling of a real-coordinate loop towards a center. -/
def scalePolyR (center : RPt) (poly : List RPt) (f : ℝ) : List RPt :=
  poly.map fun p => (center.1 + (p.1 - center.1) * f, center.2 + (p.2 - center.2) * f)

open scoped Classical in
/-- The all-points margin test of `inscribe_triangle` (margin 1.0
against the original triangle, signed distance `d`). -/
noncomputable def allInsideMarginR (d : RPt → ℝ) (margin : ℝ) (pts : List RPt) : Bool :=
  pts.all fun p => !decide (d p < margin)

/-- Bisection state of the shrink loop that `inscribe_triangle`
re-implements inline. -/
structure TriState where
  low : ℝ
  high : ℝ
  best : Option (List RPt)
  bestArea : ℝ

open scoped Classical in
/-- One bisection iteration of the `inscribe_triangle` loop. -/
noncomputable def triShrinkStep (d : RPt → ℝ) (incenter : RPt) (poly : List RPt)
    (st : TriState) : TriState :=
  let mid := (st.low + st.high) / 2
  let test := scalePolyR incenter poly mid
  if allInsideMarginR d 1 test then
    let area := contourAreaR test
    if area > st.bestArea then ⟨mid, st.high, some test, area⟩
    else ⟨mid, st.high, st.best, st.bestArea⟩
  else ⟨st.low, mid, st.best, st.bestArea⟩

open scoped Classical in
/-- The 30-iteration bisection loop of `inscribe_triangle`, with the
`high - low < 0.001` break tested after each iteration. -/
noncomputable def triShrinkLoop (d : RPt → ℝ) (incenter : RPt) (poly : List RPt) :
    ℕ → TriState → TriState
  | 0, st => st
  | fuel + 1, st =>
    let st' := triShrinkStep d incenter poly st
    if st'.high - st'.low < 1 / 1000 then st'
    else triShrinkLoop d incenter poly fuel st'

/-- The edge-length-weighted incenter
`(a*A + b*B + c*C) / (a + b + c)` computed by `inscribe_triangle`. -/
noncomputable def triIncenter (p0 p1 p2 : RPt) : RPt :=
  let a := nrm (p1.1 - p2.1, p1.2 - p2.2)
  let b := nrm (p2.1 - p0.1, p2.2 - p0.2)
  let c := nrm (p0.1 - p1.1, p0.2 - p1.2)
  ((a * p0.1 + b * p1.1 + c * p2.1) / (a + b + c),
   (a * p0.2 + b * p1.2 + c * p2.2) / (a + b + c))

/-- `adaptive_shape.inscribe_triangle`: raise (`Except.error`) unless the
loop has exactly 3 vertices, shrink towards the edge-length-weighted
incenter by bisection in `[0.5, 1.0]`, and fall back to the
coordinate-halved triangle with area 0 when no tested factor clears the
margin.  `d` embeds `cv2.pointPolygonTest(polygon, ·, True)` against
the original triangle. -/
noncomputable def inscribe_triangle (d : RPt → ℝ) (polygon : List RPt) :
    Except String (List RPt × ℝ) :=
  match polygon with
  | [p0, p1, p2] =>
    let st := triShrinkLoop d (triIncenter p0 p1 p2) [p0, p1, p2] 30 ⟨1 / 2, 1, none, 0⟩
    match st.best with
    | none => .ok ([p0, p1, p2].map fun p => (p.1 * (1 / 2), p.2 * (1 / 2)), 0)
    | some bp => .ok (bp, st.bestArea)
  | _ => .error "Triangle must have 3 vertices"

/-- The index pairs `(i, j)` with `i < j < 4`, in the nested-loop order
of `classify_shape`. -/
def idxPairs : List (ℕ × ℕ) :=
  ((List.range 4).flatMap fun i => (List.range 4).map fun j => (i, j)).filter
    fun pr => pr.1 < pr.2

/-- The four unit edge directions of the quadrilateral
`p0, p1, p2, p3`, indexed with wraparound. -/
noncomputable def quadEdges (p0 p1 p2 p3 : RPt) : ℕ → RPt := fun i =>
  match i with
  | 0 => unitEdge p0 p1
  | 1 => unitEdge p1 p2
  | 2 => unitEdge p2 p3
  | 3 => unitEdge p3 p0
  | _ => (0, 0)

open scoped Classical in
/-- Number of unordered edge pairs classified parallel within the
tolerance (the declarative reading of the claim). -/
noncomputable def parallelPairCount (e : ℕ → RPt) (tol : ℝ) : ℕ :=
  idxPairs.countP fun pr => decide (are_parallel (e pr.1) (e pr.2) tol)

/-- Every consecutive-edge angle is within tolerance of 90° (the
declarative reading of the claim). -/
def rightAngled (e : ℕ → RPt) (tol : ℝ) : Prop :=
  ∀ i < 4, |angle_between_vectors (e i) (e ((i + 1) % 4)) - 90| ≤ tol

/-! ## Theorems -/

/-- A strategy stub that always fails (is always caught). -/
def adaptiveNone : Grid → Except String (List Pt × String × ℚ) := fun _ => .error "err"

/-- A rotated-search stub that always fails (is always caught). -/
def rotatedNone : Grid → ℚ → Except String (List Pt × ℚ × ℚ) := fun _ _ => .error "err"

/-- A rasterizer stub producing the empty grid. -/
def rasterizeNone : List Pt → Grid := fun _ => []

/-- C10: `compute_coverage` is total: it returns 0 when `field_area = 0`
(the division is guarded) and `inscribed_area / field_area` otherwise. -/
theorem compute_coverage_total (inscribed_area field_area : ℚ) :
    (field_area = 0 → compute_coverage inscribed_area field_area = 0) ∧
    (field_area ≠ 0 →
      compute_coverage inscribed_area field_area = inscribed_area / field_area) := by
  constructor <;> intro h <;> simp [compute_coverage, h]

/-- Witness for C10 at `field_area = 0` and at `field_area = 3`. -/
theorem compute_coverage_total_witness :
    compute_coverage 5 0 = 0 ∧ compute_coverage 6 3 = 6 / 3 :=
  ⟨(compute_coverage_total 5 0).1 rfl, (compute_coverage_total 6 3).2 (by norm_num)⟩

/-- C7: on a grid with zero filled cells, `smart_inscribe` returns the
zero-area `"empty"` result with coverage 0; the result is the same for
every pair of strategy functions, so neither strategy is invoked. -/
theorem smart_inscribe_empty_grid
    (adaptive : Grid → Except String (List Pt × String × ℚ))
    (rotated : Grid → ℚ → Except String (List Pt × ℚ × ℚ))
    (grid : Grid) (angle_step : ℚ) (try_multiple_strategies : Bool)
    (h : gridSum grid = 0) :
    smart_inscribe adaptive rotated grid angle_step try_multiple_strategies
      = ⟨zeros42, "empty", 0, 0, "none"⟩ := by
  simp [smart_inscribe, h]

/-- Witness for C7: a concrete 2×2 empty grid. -/
theorem smart_inscribe_empty_grid_witness :
    gridSum [[false, false], [false, false]] = 0 ∧
    smart_inscribe adaptiveNone rotatedNone [[false, false], [false, false]] 1 true
      = ⟨zeros42, "empty", 0, 0, "none"⟩ :=
  ⟨rfl, smart_inscribe_empty_grid _ _ _ _ _ rfl⟩

/-- C8: `smart_inscribe` is a pure function of its inputs: two runs on
the identical grid, configuration and strategy functions give identical
`area` and `shape_type`. -/
theorem smart_inscribe_deterministic
    (adaptive : Grid → Except String (List Pt × String × ℚ))
    (rotated : Grid → ℚ → Except String (List Pt × ℚ × ℚ))
    (grid : Grid) (angle_step : ℚ) (try_multiple_strategies : Bool)
    (r1 r2 : InscribedResult)
    (h1 : r1 = smart_inscribe adaptive rotated grid angle_step try_multiple_strategies)
    (h2 : r2 = smart_inscribe adaptive rotated grid angle_step try_multiple_strategies) :
    r1.area = r2.area ∧ r1.shape_type = r2.shape_type := by
  subst h1; subst h2; exact ⟨rfl, rfl⟩

/-- Witness for C8: two runs on a concrete grid. -/
theorem smart_inscribe_deterministic_witness :
    (smart_inscribe adaptiveNone rotatedNone [[true]] 1 true).area
      = (smart_inscribe adaptiveNone rotatedNone [[true]] 1 true).area ∧
    (smart_inscribe adaptiveNone rotatedNone [[true]] 1 true).shape_type
      = (smart_inscribe adaptiveNone rotatedNone [[true]] 1 true).shape_type :=
  smart_inscribe_deterministic adaptiveNone rotatedNone [[true]] 1 true _ _ rfl rfl

/-- C1, counterexample: on the 2-vertex loop `[(0,0), (1,1)]` the
vertex entry point raises `ValueError` (`Except.error`), so it does not
return a structured zero-area `"empty"`/`"failed"` result. -/
theorem smart_inscribe_from_vertices_two_vertex_raises :
    smart_inscribe_from_vertices rasterizeNone adaptiveNone rotatedNone
      [(0, 0), (1, 1)] 1 true 1000 = .error "At least 3 vertices required" := rfl

/-- C1, amended: for every vertex loop with fewer than 3 vertices,
`smart_inscribe_from_vertices` raises
`ValueError("At least 3 vertices required")` to its caller — for every
rasterizer and strategy pipeline — instead of returning a structured
failure result. -/
theorem smart_inscribe_from_vertices_short_input_error
    (rasterize : List Pt → Grid)
    (adaptive : Grid → Except String (List Pt × String × ℚ))
    (rotated : Grid → ℚ → Except String (List Pt × ℚ × ℚ))
    (vertices : List Pt) (angle_step : ℚ) (try_multiple_strategies : Bool)
    (grid_resolution : ℚ) (h : vertices.length < 3) :
    smart_inscribe_from_vertices rasterize adaptive rotated vertices angle_step
      try_multiple_strategies grid_resolution
      = .error "At least 3 vertices required" := by
  unfold smart_inscribe_from_vertices
  rw [if_pos h]

/-- Witness for the amended C1: a concrete 1-vertex loop. -/
theorem smart_inscribe_from_vertices_short_input_error_witness :
    ([((0 : ℚ), (0 : ℚ))] : List Pt).length < 3 ∧
    smart_inscribe_from_vertices rasterizeNone adaptiveNone rotatedNone
      [(0, 0)] 1 true 1000 = .error "At least 3 vertices required" :=
  ⟨by decide,
    smart_inscribe_from_vertices_short_input_error _ _ _ _ _ _ _ (by decide)⟩

unseal Rat.add Rat.mul Rat.sub Rat.inv in
/-- C3, evaluation at the failing input: on the convex quadrilateral
`(0,0), (10,0), (18,4), (6,8)` the sweep returns the rectangle
`(x, y, w, h) = (0, 0, 10, 4)` of area 40, yet its corner `(0, 4)` —
which lies strictly outside the polygon (the left boundary at `y = 4`
is `x = 3`) — fails `point_in_polygon`. -/
theorem compute_axis_aligned_max_rect_corner_outside :
    compute_axis_aligned_max_rect [(0, 0), (10, 0), (18, 4), (6, 8)]
      = (0, 0, 10, 4, 40) ∧
    ((0 : ℚ), (4 : ℚ)) ∈ rectangle_corners 0 0 10 4 ∧
    point_in_polygon (0, 4) [(0, 0), (10, 0), (18, 4), (6, 8)] = false := by
  refine ⟨by decide, by decide, by decide⟩

/-- A fold whose step function fixes every accumulator returns the
initial accumulator. -/
theorem foldl_fixed {α β : Type} {l : List α} {f : β → α → β} {b : β}
    (hf : ∀ a ∈ l, ∀ acc, f acc a = acc) : l.foldl f b = b := by
  induction l generalizing b with
  | nil => rfl
  | cons x xs ih =>
    rw [List.foldl_cons, hf x (List.mem_cons_self x xs)]
    exact ih fun a ha acc => hf a (List.mem_cons_of_mem x ha) acc

/-- In-bounds `hGet` returns an element of the list. -/
theorem hGet_mem {poly : List Pt} {i : ℕ} (h : i < poly.length) :
    hGet poly i ∈ poly := by
  unfold hGet
  rw [List.getD_eq_getElem poly (0, 0) h]
  exact List.getElem_mem h

/-- The ray-casting step leaves `inside` unchanged on edges whose
bounding box excludes the query point on the right, the top or the
bottom. -/
theorem pipToggle_skip {pt p1 p2 : Pt} (inside : Bool)
    (h : max p1.1 p2.1 < pt.1 ∨ max p1.2 p2.2 < pt.2 ∨ pt.2 ≤ min p1.2 p2.2) :
    pipToggle pt p1 p2 inside = inside := by
  unfold pipToggle
  simp only []
  split_ifs with h1 h2 h3 h4
  · rcases h with h | h | h
    · exact absurd h3 (not_le.mpr h)
    · exact absurd h2 (not_le.mpr h)
    · exact absurd h1 (not_lt.mpr h)
  all_goals rfl

/-- C9: `point_in_polygon` never classifies as inside a point strictly
to the right of every vertex, strictly above every vertex, or at or
below every vertex. -/
theorem point_in_polygon_outside_bounds (pt : Pt) (polygon : List Pt)
    (h : (∀ v ∈ polygon, v.1 < pt.1) ∨ (∀ v ∈ polygon, v.2 < pt.2) ∨
      (∀ v ∈ polygon, pt.2 ≤ v.2)) :
    point_in_polygon pt polygon = false := by
  unfold point_in_polygon
  refine foldl_fixed fun i hi acc => ?_
  have hin : i < polygon.length := List.mem_range.mp hi
  have hnpos : 0 < polygon.length := Nat.lt_of_le_of_lt (Nat.zero_le i) hin
  have hm1 : hGet polygon i ∈ polygon := hGet_mem hin
  have hm2 : hGet polygon ((i + 1) % polygon.length) ∈ polygon :=
    hGet_mem (Nat.mod_lt _ hnpos)
  refine pipToggle_skip acc ?_
  rcases h with h | h | h
  · exact Or.inl (max_lt (h _ hm1) (h _ hm2))
  · exact Or.inr (Or.inl (max_lt (h _ hm1) (h _ hm2)))
  · exact Or.inr (Or.inr (le_min (h _ hm1) (h _ hm2)))

unseal Rat.add Rat.mul Rat.sub Rat.inv in
/-- Witness for C9: the point `(5, 1)` is strictly to the right of
every vertex of the unit-square-like loop and tests outside. -/
theorem point_in_polygon_outside_bounds_witness :
    (∀ v ∈ ([(0, 0), (2, 0), (2, 2), (0, 2)] : List Pt), v.1 < (5 : ℚ)) ∧
    point_in_polygon (5, 1) [(0, 0), (2, 0), (2, 2), (0, 2)] = false :=
  ⟨by decide,
    point_in_polygon_outside_bounds (5, 1) [(0, 0), (2, 0), (2, 2), (0, 2)]
      (Or.inl (by decide))⟩

/-- Unfolding the all-points margin test: every tested point has signed
distance at least the margin. -/
theorem allInsideMargin_spec {d : Pt → ℚ} {m : ℚ} {pts : List Pt}
    (h : allInsideMargin d m pts = true) : ∀ p ∈ pts, m ≤ d p := by
  intro p hp
  have hb := List.all_eq_true.mp h p hp
  simp only [Bool.not_eq_true', decide_eq_false_iff_not, not_lt] at hb
  exact hb

/-- The bisection loop only ever records loops that passed the margin
test. -/
theorem shrinkLoop_best {d : Pt → ℚ} {m : ℚ} {c : Pt} {poly : List Pt} :
    ∀ (fuel : ℕ) (st : ShrinkState),
      (∀ b, st.best = some b → allInsideMargin d m b = true) →
      ∀ b, (shrinkLoop d m c poly fuel st).best = some b →
        allInsideMargin d m b = true := by
  intro fuel
  induction fuel with
  | zero => intro st hst; exact hst
  | succ n ih =>
    intro st hst
    have hstep : ∀ b, (shrinkStep d m c poly st).best = some b →
        allInsideMargin d m b = true := by
      intro b hb
      unfold shrinkStep at hb
      simp only [] at hb
      split_ifs at hb with h1 h2
      · simp only [Option.some.injEq] at hb
        rw [← hb]
        exact h1
      · exact hst b hb
      · exact hst b hb
    rw [shrinkLoop]
    split_ifs with hbr
    · exact hstep
    · exact ih _ hstep

/-- Every corner of a positive-area result of `shrink_rect_to_polygon`
has signed distance at least the 0.5-pixel safety margin from the
polygon boundary. -/
theorem shrink_rect_to_polygon_margin (d : Pt → ℚ) (corners : List Pt)
    (h : 0 < (shrink_rect_to_polygon d corners).2) :
    ∀ p ∈ (shrink_rect_to_polygon d corners).1, 1 / 2 ≤ d p := by
  intro p hp
  unfold shrink_rect_to_polygon at h hp
  by_cases hin : allInsideMargin d (1 / 2) corners = true
  · rw [if_pos hin] at hp
    exact allInsideMargin_spec hin p hp
  · rw [if_neg hin] at h hp
    simp only [] at h hp
    cases hb : (shrinkLoop d (1 / 2) (centroid corners) corners 30
        ⟨1 / 2, 1, none, 0⟩).best with
    | none =>
      rw [hb] at h
      simp only [] at h
      exact absurd h (lt_irrefl 0)
    | some b =>
      rw [hb] at hp
      simp only [] at hp
      have hball : allInsideMargin d (1 / 2) b = true :=
        shrinkLoop_best 30 ⟨1 / 2, 1, none, 0⟩ (fun b hbb => by cases hbb) b hb
      exact allInsideMargin_spec hball p hp

/-- Invariant of the angle-candidate fold: the running best area stays
nonnegative, and any recorded corner loop clears the safety margin. -/
theorem lirFold_inv (d : Pt → ℚ) (cands : List (List Pt × ℚ)) :
    ∀ st : Option (List Pt) × ℚ × ℚ, 0 ≤ st.2.2 →
      (∀ c, st.1 = some c → ∀ p ∈ c, 1 / 2 ≤ d p) →
      0 ≤ (cands.foldl (lirStep d) st).2.2 ∧
      ∀ c, (cands.foldl (lirStep d) st).1 = some c → ∀ p ∈ c, 1 / 2 ≤ d p := by
  induction cands with
  | nil => intro st h0 h1; exact ⟨h0, h1⟩
  | cons x xs ih =>
    intro st h0 h1
    rw [List.foldl_cons]
    apply ih
    · unfold lirStep
      simp only []
      split_ifs with hf
      · exact le_of_lt (lt_of_le_of_lt h0 hf)
      · exact h0
    · unfold lirStep
      simp only []
      split_ifs with hf
      · intro c hc p hp
        simp only [Option.some.injEq] at hc
        rw [← hc] at hp
        exact shrink_rect_to_polygon_margin d x.1 (lt_of_le_of_lt h0 hf) p hp
      · exact h1

/-- C2: whenever the boundary-safe rotated search returns a result with
positive area, each returned corner point has signed distance `d` (to
the extracted polygon boundary) at least the safety margin 0.5 — for
every occupancy grid and tested angle set, i.e. for every distance
function and candidate proposal list. -/
theorem lir_rotated_safe_margin (d : Pt → ℚ) (cands : List (List Pt × ℚ))
    (h : 0 < (lir_rotated_safe d cands).2.2) :
    ∀ p ∈ (lir_rotated_safe d cands).1, 1 / 2 ≤ d p := by
  have hinv := lirFold_inv d cands (none, 0, 0) le_rfl (fun c hc => by cases hc)
  intro p hp
  unfold lir_rotated_safe at h hp
  simp only [] at h hp
  cases hsel : (lirSelectLoop d cands).1 with
  | none =>
    rw [hsel] at h
    simp only [] at h
    exact absurd h (lt_irrefl 0)
  | some corners =>
    rw [hsel] at hp
    simp only [] at hp
    exact hinv.2 corners hsel p hp

/-- A distance stub: every point one unit inside. -/
def dOne : Pt → ℚ := fun _ => 1

unseal Rat.add Rat.mul Rat.sub Rat.inv in
/-- Witness for C2: one proposed unit-square candidate, distance 1
everywhere; the result has area 4 and every corner clears the margin. -/
theorem lir_rotated_safe_margin_witness :
    0 < (lir_rotated_safe dOne [([(0, 0), (2, 0), (2, 2), (0, 2)], 0)]).2.2 ∧
    ∀ p ∈ (lir_rotated_safe dOne [([(0, 0), (2, 0), (2, 2), (0, 2)], 0)]).1,
      1 / 2 ≤ dOne p :=
  ⟨by decide, lir_rotated_safe_margin _ _ (by decide)⟩

/-- Scaling by factor 1 is the identity. -/
theorem scalePoly_one (c : Pt) (poly : List Pt) : scalePoly c poly 1 = poly := by
  unfold scalePoly
  have hf : (fun p : Pt => (c.1 + (p.1 - c.1) * 1, c.2 + (p.2 - c.2) * 1))
      = fun p : Pt => p := by
    funext p
    have h1 : c.1 + (p.1 - c.1) * 1 = p.1 := by ring
    have h2 : c.2 + (p.2 - c.2) * 1 = p.2 := by ring
    rw [h1, h2]
  rw [hf, List.map_id']

/-- When every factor in `[1/2, 1]` fails the margin test, the bisection
loop never records a best loop. -/
theorem shrinkLoop_none {d : Pt → ℚ} {m : ℚ} {c : Pt} {poly : List Pt}
    (H : ∀ f, 1 / 2 ≤ f → f ≤ 1 →
      allInsideMargin d m (scalePoly c poly f) = false) :
    ∀ (fuel : ℕ) (st : ShrinkState), 1 / 2 ≤ st.low → st.low ≤ st.high →
      st.high ≤ 1 → st.best = none →
      (shrinkLoop d m c poly fuel st).best = none := by
  intro fuel
  induction fuel with
  | zero => intro st _ _ _ hb; exact hb
  | succ n ih =>
    intro st h1 h2 h3 hb
    have hmid1 : 1 / 2 ≤ (st.low + st.high) / 2 := by linarith
    have hmid2 : (st.low + st.high) / 2 ≤ st.high := by linarith
    have hmid3 : st.low ≤ (st.low + st.high) / 2 := by linarith
    have hstep : shrinkStep d m c poly st
        = ⟨st.low, (st.low + st.high) / 2, st.best, st.bestArea⟩ := by
      unfold shrinkStep
      simp only []
      rw [if_neg (by simp [H _ hmid1 (le_trans hmid2 h3)])]
    rw [shrinkLoop]
    simp only [hstep]
    split_ifs with hbr
    · exact hb
    · exact ih _ h1 hmid3 (le_trans hmid2 h3) hb

/-- Real-coordinate scaling by factor 1 is the identity. -/
theorem scalePolyR_one (c : RPt) (poly : List RPt) : scalePolyR c poly 1 = poly := by
  unfold scalePolyR
  have hf : (fun p : RPt => (c.1 + (p.1 - c.1) * 1, c.2 + (p.2 - c.2) * 1))
      = fun p : RPt => p := by
    funext p
    have h1 : c.1 + (p.1 - c.1) * 1 = p.1 := by ring
    have h2 : c.2 + (p.2 - c.2) * 1 = p.2 := by ring
    rw [h1, h2]
  rw [hf, List.map_id']

/-- When every factor in `[1/2, 1]` fails the margin test, the triangle
bisection loop never records a best loop. -/
theorem triShrinkLoop_none {d : RPt → ℝ} {c : RPt} {poly : List RPt}
    (H : ∀ f : ℝ, 1 / 2 ≤ f → f ≤ 1 →
      allInsideMarginR d 1 (scalePolyR c poly f) = false) :
    ∀ (fuel : ℕ) (st : TriState), 1 / 2 ≤ st.low → st.low ≤ st.high →
      st.high ≤ 1 → st.best = none →
      (triShrinkLoop d c poly fuel st).best = none := by
  intro fuel
  induction fuel with
  | zero => intro st _ _ _ hb; exact hb
  | succ n ih =>
    intro st h1 h2 h3 hb
    have hmid1 : 1 / 2 ≤ (st.low + st.high) / 2 := by linarith
    have hmid2 : (st.low + st.high) / 2 ≤ st.high := by linarith
    have hmid3 : st.low ≤ (st.low + st.high) / 2 := by linarith
    have hstep : triShrinkStep d c poly st
        = ⟨st.low, (st.low + st.high) / 2, st.best, st.bestArea⟩ := by
      unfold triShrinkStep
      simp only []
      rw [if_neg (by simp [H _ hmid1 (le_trans hmid2 h3)])]
    rw [triShrinkLoop]
    simp only [hstep]
    split_ifs with hbr
    · exact hb
    · exact ih _ h1 hmid3 (le_trans hmid2 h3) hb

/-- C5: when the inner loop cannot be fit at any shrink factor down to
0.5 (every factor in `[0.5, 1]` fails the margin test), each bisection
shrink routine returns the coordinate-halved input loop together with
area 0 — and does not raise: the first two routines are total, and
`inscribe_triangle` returns `Except.ok` on its 3-vertex inputs. -/
theorem shrink_fallback_zero_area :
    (∀ (d : Pt → ℚ) (polygon : List Pt),
      (∀ f, 1 / 2 ≤ f → f ≤ 1 →
        allInsideMargin d 1 (scalePoly (centroid polygon) polygon f) = false) →
      shrink_polygon_to_fit d polygon
        = (polygon.map fun p => (p.1 * (1 / 2), p.2 * (1 / 2)), 0)) ∧
    (∀ (d : Pt → ℚ) (corners : List Pt),
      (∀ f, 1 / 2 ≤ f → f ≤ 1 →
        allInsideMargin d (1 / 2) (scalePoly (centroid corners) corners f) = false) →
      shrink_rect_to_polygon d corners
        = (corners.map fun p => (p.1 * (1 / 2), p.2 * (1 / 2)), 0)) ∧
    (∀ (d : RPt → ℝ) (p0 p1 p2 : RPt),
      (∀ f : ℝ, 1 / 2 ≤ f → f ≤ 1 →
        allInsideMarginR d 1
          (scalePolyR (triIncenter p0 p1 p2) [p0, p1, p2] f) = false) →
      inscribe_triangle d [p0, p1, p2]
        = .ok ([p0, p1, p2].map fun p => (p.1 * (1 / 2), p.2 * (1 / 2)), 0)) := by
  refine ⟨?_, ?_, ?_⟩
  · intro d polygon H
    unfold shrink_polygon_to_fit
    simp only []
    have hin : allInsideMargin d 1 polygon = false := by
      have h1 := H 1 (by norm_num) le_rfl
      rwa [scalePoly_one] at h1
    rw [if_neg (by rw [hin]; exact Bool.false_ne_true)]
    rw [shrinkLoop_none H 30 ⟨1 / 2, 1, none, 0⟩ le_rfl (by norm_num) le_rfl rfl]
  · intro d corners H
    unfold shrink_rect_to_polygon
    simp only []
    have hin : allInsideMargin d (1 / 2) corners = false := by
      have h1 := H 1 (by norm_num) le_rfl
      rwa [scalePoly_one] at h1
    rw [if_neg (by rw [hin]; exact Bool.false_ne_true)]
    rw [shrinkLoop_none H 30 ⟨1 / 2, 1, none, 0⟩ le_rfl (by norm_num) le_rfl rfl]
  · intro d p0 p1 p2 H
    unfold inscribe_triangle
    simp only []
    rw [triShrinkLoop_none H 30 ⟨1 / 2, 1, none, 0⟩ le_rfl (by norm_num) le_rfl rfl]

/-- A distance stub: every point exactly on the boundary. -/
def dZero : Pt → ℚ := fun _ => 0

/-- A real-coordinate distance stub: every point exactly on the
boundary. -/
def dZeroR : RPt → ℝ := fun _ => 0

unseal Rat.add Rat.mul Rat.sub Rat.inv in
/-- Witness for C5: the margin test fails at every factor for a
distance function that reports distance 0 everywhere, and each routine
returns the halved loop with area 0. -/
theorem shrink_fallback_zero_area_witness :
    shrink_polygon_to_fit dZero [(0, 0), (4, 0), (0, 4)]
      = ([(0, 0), (2, 0), (0, 2)], 0) ∧
    shrink_rect_to_polygon dZero [(0, 0), (4, 0), (4, 4), (0, 4)]
      = ([(0, 0), (2, 0), (2, 2), (0, 2)], 0) ∧
    inscribe_triangle dZeroR [(0, 0), (4, 0), (0, 4)]
      = .ok ([(0, 0), (2, 0), (0, 2)], 0) := by
  refine ⟨?_, ?_, ?_⟩
  · rw [shrink_fallback_zero_area.1 dZero [(0, 0), (4, 0), (0, 4)]
      (by intro f _ _; simp [allInsideMargin, scalePoly, dZero])]
    decide
  · rw [shrink_fallback_zero_area.2.1 dZero [(0, 0), (4, 0), (4, 4), (0, 4)]
      (by intro f _ _; simp [allInsideMargin, scalePoly, dZero])]
    decide
  · rw [shrink_fallback_zero_area.2.2 dZeroR (0, 0) (4, 0) (0, 4)
      (by intro f _ _; simp [allInsideMarginR, scalePolyR, dZeroR])]
    norm_num

/-- The nested-loop index pairs, evaluated. -/
theorem idxPairs_eq : idxPairs = [(0, 1), (0, 2), (0, 3), (1, 2), (1, 3), (2, 3)] := rfl

open scoped Classical in
/-- C6: on every 4-vertex loop, `classify_shape` returns `RECTANGLE`
exactly when at least 2 edge pairs are parallel within the tolerance
and all four consecutive-edge angles are within tolerance of 90°;
`PARALLELOGRAM` when at least 2 parallel pairs exist but some
consecutive angle deviates by more than the tolerance; `TRAPEZOID`
exactly when exactly 1 parallel pair exists; and `GENERAL` otherwise. -/
theorem classify_shape_quad_cases (p0 p1 p2 p3 : RPt) (tol : ℝ) :
    (classify_shape [p0, p1, p2, p3] tol = .RECTANGLE ↔
      2 ≤ parallelPairCount (quadEdges p0 p1 p2 p3) tol ∧
        rightAngled (quadEdges p0 p1 p2 p3) tol) ∧
    (classify_shape [p0, p1, p2, p3] tol = .PARALLELOGRAM ↔
      2 ≤ parallelPairCount (quadEdges p0 p1 p2 p3) tol ∧
        ¬ rightAngled (quadEdges p0 p1 p2 p3) tol) ∧
    (classify_shape [p0, p1, p2, p3] tol = .TRAPEZOID ↔
      parallelPairCount (quadEdges p0 p1 p2 p3) tol = 1) ∧
    (classify_shape [p0, p1, p2, p3] tol = .GENERAL ↔
      parallelPairCount (quadEdges p0 p1 p2 p3) tol = 0) := by
  have hred : classify_shape [p0, p1, p2, p3] tol =
      (if 2 ≤ ([(unitEdge p0 p1, unitEdge p1 p2), (unitEdge p0 p1, unitEdge p2 p3),
          (unitEdge p0 p1, unitEdge p3 p0), (unitEdge p1 p2, unitEdge p2 p3),
          (unitEdge p1 p2, unitEdge p3 p0), (unitEdge p2 p3, unitEdge p3 p0)].filter
            fun pr => decide (are_parallel pr.1 pr.2 tol)).length then
        (if [(unitEdge p0 p1, unitEdge p1 p2), (unitEdge p1 p2, unitEdge p2 p3),
            (unitEdge p2 p3, unitEdge p3 p0), (unitEdge p3 p0, unitEdge p0 p1)].all
              (fun pr => !decide (|angle_between_vectors pr.1 pr.2 - 90| > tol)) then
          ShapeType.RECTANGLE
        else ShapeType.PARALLELOGRAM)
      else if ([(unitEdge p0 p1, unitEdge p1 p2), (unitEdge p0 p1, unitEdge p2 p3),
          (unitEdge p0 p1, unitEdge p3 p0), (unitEdge p1 p2, unitEdge p2 p3),
          (unitEdge p1 p2, unitEdge p3 p0), (unitEdge p2 p3, unitEdge p3 p0)].filter
            fun pr => decide (are_parallel pr.1 pr.2 tol)).length = 1 then
        ShapeType.TRAPEZOID
      else ShapeType.GENERAL) := rfl
  have hmap : [(unitEdge p0 p1, unitEdge p1 p2), (unitEdge p0 p1, unitEdge p2 p3),
      (unitEdge p0 p1, unitEdge p3 p0), (unitEdge p1 p2, unitEdge p2 p3),
      (unitEdge p1 p2, unitEdge p3 p0), (unitEdge p2 p3, unitEdge p3 p0)]
      = idxPairs.map
          (fun pr => (quadEdges p0 p1 p2 p3 pr.1, quadEdges p0 p1 p2 p3 pr.2)) := by
    rw [idxPairs_eq]
    rfl
  have hA : ([(unitEdge p0 p1, unitEdge p1 p2), (unitEdge p0 p1, unitEdge p2 p3),
      (unitEdge p0 p1, unitEdge p3 p0), (unitEdge p1 p2, unitEdge p2 p3),
      (unitEdge p1 p2, unitEdge p3 p0), (unitEdge p2 p3, unitEdge p3 p0)].filter
        fun pr => decide (are_parallel pr.1 pr.2 tol)).length
      = parallelPairCount (quadEdges p0 p1 p2 p3) tol := by
    rw [hmap, ← List.countP_eq_length_filter, List.countP_map]
    rfl
  have hB : ([(unitEdge p0 p1, unitEdge p1 p2), (unitEdge p1 p2, unitEdge p2 p3),
      (unitEdge p2 p3, unitEdge p3 p0), (unitEdge p3 p0, unitEdge p0 p1)].all
        (fun pr => !decide (|angle_between_vectors pr.1 pr.2 - 90| > tol)) = true)
      ↔ rightAngled (quadEdges p0 p1 p2 p3) tol := by
    simp only [List.all_cons, List.all_nil, Bool.and_eq_true, Bool.not_eq_true',
      decide_eq_false_iff_not, not_lt, Bool.and_true]
    constructor
    · rintro ⟨h0, h1, h2, h3⟩ i hi
      interval_cases i
      · exact h0
      · exact h1
      · exact h2
      · exact h3
    · intro h
      exact ⟨h 0 (by norm_num), h 1 (by norm_num), h 2 (by norm_num),
        h 3 (by norm_num)⟩
  rw [hred, hA]
  by_cases h2 : 2 ≤ parallelPairCount (quadEdges p0 p1 p2 p3) tol
  · rw [if_pos h2]
    by_cases hall : ([(unitEdge p0 p1, unitEdge p1 p2), (unitEdge p1 p2, unitEdge p2 p3),
        (unitEdge p2 p3, unitEdge p3 p0), (unitEdge p3 p0, unitEdge p0 p1)].all
          (fun pr => !decide (|angle_between_vectors pr.1 pr.2 - 90| > tol))) = true
    · rw [if_pos hall]
      refine ⟨⟨fun _ => ⟨h2, hB.mp hall⟩, fun _ => rfl⟩, ?_, ?_, ?_⟩
      · exact ⟨fun hc => absurd hc (by simp), fun hc => absurd (hB.mp hall) hc.2⟩
      · exact ⟨fun hc => absurd hc (by simp), fun hc => by omega⟩
      · exact ⟨fun hc => absurd hc (by simp), fun hc => by omega⟩
    · rw [if_neg hall]
      refine ⟨?_, ⟨fun _ => ⟨h2, fun hr => hall (hB.mpr hr)⟩, fun _ => rfl⟩, ?_, ?_⟩
      · exact ⟨fun hc => absurd hc (by simp), fun hc => absurd (hB.mpr hc.2) hall⟩
      · exact ⟨fun hc => absurd hc (by simp), fun hc => by omega⟩
      · exact ⟨fun hc => absurd hc (by simp), fun hc => by omega⟩
  · rw [if_neg h2]
    by_cases h1 : parallelPairCount (quadEdges p0 p1 p2 p3) tol = 1
    · rw [if_pos h1]
      refine ⟨?_, ?_, ⟨fun _ => h1, fun _ => rfl⟩, ?_⟩
      · exact ⟨fun hc => absurd hc (by simp), fun hc => absurd hc.1 h2⟩
      · exact ⟨fun hc => absurd hc (by simp), fun hc => absurd hc.1 h2⟩
      · exact ⟨fun hc => absurd hc (by simp), fun hc => by omega⟩
    · rw [if_neg h1]
      refine ⟨?_, ?_, ?_, ⟨fun _ => by omega, fun _ => rfl⟩⟩
      · exact ⟨fun hc => absurd hc (by simp), fun hc => absurd hc.1 h2⟩
      · exact ⟨fun hc => absurd hc (by simp), fun hc => absurd hc.1 h2⟩
      · exact ⟨fun hc => absurd hc (by simp), fun hc => absurd hc h1⟩

end FarmLir
